import Mathlib

/-!
# Verification of the pcap record dissector `eaud_pcap_dissect`

Shallow embedding of `src/extractaudio/eaud_pcap.c`.  The input buffer is
modelled as an infinite byte memory `buf : Nat → Nat` (each cell read modulo
256) together with the physical length `blen : Nat`; the C code reads through
a pointer and is free to dereference past `blen`, which the total function
models.  The host is modelled as little-endian (the common x86/ARM case):
a plain `memcpy` load of a multi-byte field is a little-endian read, and
`ntohs` is the 16-bit byte swap.

Layout facts taken from the repository headers `rtpp_record_private.h` /
`eaud_pcap.h` (declared but not present under `src/`) and the standard
`netinet` headers, following the spec's data model:
  * `pcaprec_hdr_t` is 16 bytes (four 32-bit words), `incl_len` at offset 8;
  * `struct pkt_hdr_pcap_null` is record header (16) + 4-byte family +
    packed `struct udpip` (20-byte IP header + 8-byte UDP header) = 48 bytes;
  * `struct pkt_hdr_pcap_en10t` is record header (16) + 14-byte Ethernet
    header (type field at its offset 12) + `struct udpip` = 58 bytes;
  * `struct linux_sll_hdr` is 16 bytes with the 2-byte `protocol` field at
    offset 14;
  * in `struct ip`, on a little-endian host the header-length nibble
    `ip_hl` is the low nibble of byte 0; `ip_src` is at offset 12 and
    `ip_dst` at offset 16; in `struct udphdr`, `uh_sport` is at offset 0
    and `uh_dport` at offset 2.
Pointers stored into the output structure are modelled as byte offsets from
the start of the buffer (0 = NULL).
-/

/-- One byte of the memory underlying the buffer: cells are read modulo 256,
so that an arbitrary `Nat`-valued function models a byte memory. -/
def byteAt (buf : Nat → Nat) (i : Nat) : Nat := buf i % 256

/-- Model of a `memcpy` of a 2-byte field into a `uint16_t` on the
little-endian host: a little-endian 16-bit read. -/
def read16le (buf : Nat → Nat) (off : Nat) : Nat :=
  byteAt buf off + 256 * byteAt buf (off + 1)

/-- Model of a `memcpy` of a 4-byte field into a `uint32_t` on the
little-endian host: a little-endian 32-bit read. -/
def read32le (buf : Nat → Nat) (off : Nat) : Nat :=
  byteAt buf off + 256 * byteAt buf (off + 1) +
    65536 * byteAt buf (off + 2) + 16777216 * byteAt buf (off + 3)

/-- Model of `ntohs` on the little-endian host: swap the two bytes of a
16-bit value. -/
def ntohs16 (x : Nat) : Nat := (x % 256) * 256 + (x / 256) % 256

/-- Truncation of an integer to a 32-bit signed `int` (two's complement),
as happens when the C code stores a wider unsigned computation into the
`int`-typed field `l5_len`. -/
def toInt32 (x : Int) : Int :=
  if x % 4294967296 < 2147483648 then x % 4294967296 else x % 4294967296 - 4294967296

/-- Constant `DLT_NULL`: the loopback/null link type tag. -/
def DLT_NULL : Int := 0

/-- Constant `DLT_LINUX_SLL`: the Linux cooked-capture link type tag. -/
def DLT_LINUX_SLL : Int := 113

/-- Constant `DLT_EN10MB`: the Ethernet link type tag (the default branch of the
dissector treats every tag other than `DLT_NULL` and `DLT_LINUX_SLL` this
way). -/
def DLT_EN10MB : Int := 1

/-- Constant `AF_INET`, the numeric IPv4 address-family constant. -/
def AF_INET : Nat := 2

/-- Modelled from the spec: the repository constant `ETHERTYPE_INET` lives
in `rtpp_record_private.h`, which is not under `src/`.  The dissector
compares the raw (unconverted) 2-byte ethertype load against it, and the
spec states that the on-wire field is the network-byte-order IPv4 ethertype
0x0800 and that such records proceed; hence on the little-endian host model
the constant is the network-byte-order representation 0x0008. -/
def ETHERTYPE_INET : Nat := 8

/-- Size `sizeof(pcaprec_hdr_t)`: four 32-bit words. -/
def szPcaprecHdr : Nat := 16

/-- Size `sizeof(struct pkt_hdr_pcap_null)`: record header + 4-byte family
+ packed IP/UDP pair. -/
def szPktHdrPcapNull : Nat := 48

/-- Size `sizeof(struct linux_sll_hdr)`. -/
def szLinuxSllHdr : Nat := 16

/-- Size `sizeof(struct pkt_hdr_pcap_en10t)`: record header + 14-byte
Ethernet header + packed IP/UDP pair. -/
def szPktHdrPcapEn10t : Nat := 58

/-- Size `sizeof(struct udphdr)`. -/
def szUdphdr : Nat := 8

/-- Size `sizeof(struct udpip)`: a 20-byte IP header immediately followed
by an 8-byte UDP header (packed). -/
def szUdpip : Nat := 28

/-- Outcome codes `PCP_DSCT_OK` / `PCP_DSCT_UNKN` / `PCP_DSCT_TRNK`. -/
inductive PcapOutcome where
  | OK : PcapOutcome
  | UNKN : PcapOutcome
  | TRNK : PcapOutcome
  deriving DecidableEq, Repr

/-- The output structure `struct pcap_dissect` of `eaud_pcap.h` (header not
under `src/`; field set taken from the uses in `eaud_pcap.c` and the spec's
result description).  `pcaprec_hdr` holds the 16 copied record-header bytes;
`pcap_hdr_len` is the consumed-header length (modelled as an exact natural
number, per the spec: it is set to the declared record length in the
Unknown case); `udpip`, `l5_data`, `src`, `dst` are pointers modelled as
byte offsets into the buffer (0 = NULL); `l5_len` is the `int`-typed
payload length; `sport`/`dport` are the host-order ports. -/
structure PcapDissect where
  pcaprec_hdr : List Nat
  pcap_hdr_len : Nat
  udpip : Nat
  l5_data : Nat
  l5_len : Int
  src : Nat
  dst : Nat
  sport : Nat
  dport : Nat
  deriving DecidableEq, Repr

/-- Model of `memset(dp, 0, sizeof(*dp))`: the zero-initialized result. -/
def zeroDissect : PcapDissect :=
  { pcaprec_hdr := List.replicate 16 0
    pcap_hdr_len := 0
    udpip := 0
    l5_data := 0
    l5_len := 0
    src := 0
    dst := 0
    sport := 0
    dport := 0 }

/-- Model of `memcpy(&dp->pcaprec_hdr, bp, sizeof(pcaprec_hdr_t))`: the 16
record header bytes starting at offset `off`. -/
def copyHdr (buf : Nat → Nat) (off : Nat) : List Nat :=
  (List.range 16).map (fun i => byteAt buf (off + i))

/-- Result of the link-layer stage of `eaud_pcap_dissect`: either an early
return (short buffer or non-IPv4 discriminator), or the declared captured
length `incl_len` together with the partially populated result. -/
def dissectStage1 (buf : Nat → Nat) (blen : Nat) (network : Int) :
    (PcapOutcome × PcapDissect) ⊕ (Nat × PcapDissect) :=
  if network = DLT_NULL then
    if blen < szPktHdrPcapNull then Sum.inl (PcapOutcome.TRNK, zeroDissect)
    else
      let family := read32le buf 16
      let incl_len := read32le buf 8
      if family ≠ AF_INET then
        Sum.inl (PcapOutcome.UNKN, { zeroDissect with pcap_hdr_len := szPcaprecHdr + incl_len })
      else
        Sum.inr (incl_len,
          { zeroDissect with
              pcaprec_hdr := copyHdr buf 0
              pcap_hdr_len := szPktHdrPcapNull
              udpip := 20 })
  else if network = DLT_LINUX_SLL then
    if blen < szPcaprecHdr + szLinuxSllHdr then Sum.inl (PcapOutcome.TRNK, zeroDissect)
    else
      let protocol := ntohs16 (read16le buf (szPcaprecHdr + 14))
      let incl_len := read32le buf 8
      if protocol ≠ 2048 then
        Sum.inl (PcapOutcome.UNKN, { zeroDissect with pcap_hdr_len := szPcaprecHdr + incl_len })
      else
        Sum.inr (incl_len,
          { zeroDissect with
              pcaprec_hdr := copyHdr buf 0
              pcap_hdr_len := szPcaprecHdr + szLinuxSllHdr
              udpip := szPcaprecHdr + szLinuxSllHdr })
  else
    if blen < szPktHdrPcapEn10t then Sum.inl (PcapOutcome.TRNK, zeroDissect)
    else
      let ether_type := read16le buf 28
      let incl_len := read32le buf 8
      if ether_type ≠ ETHERTYPE_INET then
        Sum.inl (PcapOutcome.UNKN, { zeroDissect with pcap_hdr_len := szPcaprecHdr + incl_len })
      else
        Sum.inr (incl_len,
          { zeroDissect with
              pcaprec_hdr := copyHdr buf 0
              pcap_hdr_len := szPktHdrPcapEn10t
              udpip := 30 })

/-- The function `eaud_pcap_dissect(bp, blen, network, dp)` of
`src/extractaudio/eaud_pcap.c`, returning the outcome code together with
the contents of `*dp` at return.  `dp->l5_len` is computed as
`incl_len + sizeof(pcaprec_hdr_t) - dp->pcap_hdr_len` in unsigned
arithmetic and stored into the 32-bit `int` field, modelled by `toInt32`
of the exact integer value (unsigned wraparound followed by truncation to
32 bits agrees with `toInt32` because 2^32 divides 2^64). -/
def eaud_pcap_dissect (buf : Nat → Nat) (blen : Nat) (network : Int) :
    PcapOutcome × PcapDissect :=
  match dissectStage1 buf blen network with
  | Sum.inl r => r
  | Sum.inr (incl_len, dp1) =>
    let l5 := toInt32 ((incl_len : Int) + (szPcaprecHdr : Int) - (dp1.pcap_hdr_len : Int))
    let dp2 := { dp1 with l5_len := l5 }
    if l5 < 0 then (PcapOutcome.TRNK, dp2)
    else if network = DLT_LINUX_SLL then
      let ipoff := dp2.udpip
      let ip_hdr_len := (byteAt buf ipoff % 16) * 4
      if l5 < (ip_hdr_len : Int) + (szUdphdr : Int) then (PcapOutcome.TRNK, dp2)
      else
        let udpoff := ipoff + ip_hdr_len
        (PcapOutcome.OK,
          { dp2 with
              l5_data := udpoff + szUdphdr
              l5_len := l5 - ((ip_hdr_len : Int) + (szUdphdr : Int))
              src := ipoff + 12
              dst := ipoff + 16
              sport := ntohs16 (read16le buf udpoff)
              dport := ntohs16 (read16le buf (udpoff + 2)) })
    else
      (PcapOutcome.OK,
        { dp2 with
            l5_data := dp2.udpip + szUdpip
            src := dp2.udpip + 12
            dst := dp2.udpip + 16
            sport := ntohs16 (read16le buf (dp2.udpip + 20))
            dport := ntohs16 (read16le buf (dp2.udpip + 22)) })

/-- The per-framing minimum buffer length demanded by the dissector's first
check: `sizeof(pcp->null)` for `DLT_NULL`,
`sizeof(pcaprec_hdr_t) + sizeof(struct linux_sll_hdr)` for
`DLT_LINUX_SLL`, and `sizeof(pcp->en10t)` for the default branch. -/
def minSizeFor (network : Int) : Nat :=
  if network = DLT_NULL then szPktHdrPcapNull
  else if network = DLT_LINUX_SLL then szPcaprecHdr + szLinuxSllHdr
  else szPktHdrPcapEn10t

/-! ## Helper lemmas: path characterizations of the dissector -/

theorem toInt32_of_nonneg_small (x : Int) (h0 : 0 ≤ x) (h1 : x < 2147483648) :
    toInt32 x = x := by
  unfold toInt32
  have hm : x % 4294967296 = x := Int.emod_eq_of_lt h0 (by omega)
  rw [hm, if_pos h1]

theorem dissect_short (buf : Nat → Nat) (blen : Nat) (network : Int)
    (h : blen < minSizeFor network) :
    eaud_pcap_dissect buf blen network = (PcapOutcome.TRNK, zeroDissect) := by
  by_cases h0 : network = DLT_NULL
  · rw [minSizeFor, if_pos h0] at h
    simp [eaud_pcap_dissect, dissectStage1, h0, h]
  · by_cases h1 : network = DLT_LINUX_SLL
    · rw [minSizeFor, if_neg h0, if_pos h1] at h
      have h' : blen < 32 := by simpa [szPcaprecHdr, szLinuxSllHdr] using h
      simp [eaud_pcap_dissect, dissectStage1, h0, h1, DLT_NULL, DLT_LINUX_SLL,
        szPcaprecHdr, szLinuxSllHdr, h']
    · rw [minSizeFor, if_neg h0, if_neg h1] at h
      simp [eaud_pcap_dissect, dissectStage1, h0, h1, h]

theorem dissect_null_unkn (buf : Nat → Nat) (blen : Nat)
    (hb : szPktHdrPcapNull ≤ blen) (hf : read32le buf 16 ≠ AF_INET) :
    eaud_pcap_dissect buf blen DLT_NULL =
      (PcapOutcome.UNKN,
        { zeroDissect with pcap_hdr_len := szPcaprecHdr + read32le buf 8 }) := by
  simp [eaud_pcap_dissect, dissectStage1, Nat.not_lt.mpr hb, hf]

theorem dissect_sll_unkn (buf : Nat → Nat) (blen : Nat)
    (hb : szPcaprecHdr + szLinuxSllHdr ≤ blen)
    (hp : ntohs16 (read16le buf 30) ≠ 2048) :
    eaud_pcap_dissect buf blen DLT_LINUX_SLL =
      (PcapOutcome.UNKN,
        { zeroDissect with pcap_hdr_len := szPcaprecHdr + read32le buf 8 }) := by
  have hb' : ¬ blen < 32 := by
    simp only [szPcaprecHdr, szLinuxSllHdr] at hb
    omega
  simp [eaud_pcap_dissect, dissectStage1, DLT_NULL, DLT_LINUX_SLL, szPcaprecHdr,
    szLinuxSllHdr, hb', hp]

theorem dissect_eth_unkn (buf : Nat → Nat) (blen : Nat) (network : Int)
    (h0 : network ≠ DLT_NULL) (h1 : network ≠ DLT_LINUX_SLL)
    (hb : szPktHdrPcapEn10t ≤ blen) (he : read16le buf 28 ≠ ETHERTYPE_INET) :
    eaud_pcap_dissect buf blen network =
      (PcapOutcome.UNKN,
        { zeroDissect with pcap_hdr_len := szPcaprecHdr + read32le buf 8 }) := by
  simp [eaud_pcap_dissect, dissectStage1, h0, h1, Nat.not_lt.mpr hb, he]

theorem dissect_default_eq (buf : Nat → Nat) (blen : Nat) (network : Int)
    (h0 : network ≠ DLT_NULL) (h1 : network ≠ DLT_LINUX_SLL) :
    eaud_pcap_dissect buf blen network = eaud_pcap_dissect buf blen DLT_EN10MB := by
  have h0' : ¬ network = (0 : Int) := by simpa [DLT_NULL] using h0
  have h1' : ¬ network = (113 : Int) := by simpa [DLT_LINUX_SLL] using h1
  simp [eaud_pcap_dissect, dissectStage1, h0', h1', DLT_EN10MB, DLT_NULL, DLT_LINUX_SLL]

theorem dissect_null_trnk_neg (buf : Nat → Nat) (blen : Nat)
    (hb : szPktHdrPcapNull ≤ blen) (hf : read32le buf 16 = AF_INET)
    (hneg : toInt32 ((read32le buf 8 : Int) + 16 - 48) < 0) :
    eaud_pcap_dissect buf blen DLT_NULL =
      (PcapOutcome.TRNK,
        { pcaprec_hdr := copyHdr buf 0, pcap_hdr_len := 48, udpip := 20,
          l5_data := 0, l5_len := toInt32 ((read32le buf 8 : Int) + 16 - 48),
          src := 0, dst := 0, sport := 0, dport := 0 }) := by
  have hb' : ¬ blen < 48 := by
    simp only [szPktHdrPcapNull] at hb
    omega
  simp [eaud_pcap_dissect, dissectStage1, hb', hf, zeroDissect,
    szPktHdrPcapNull, szPcaprecHdr, hneg]

theorem dissect_null_ok (buf : Nat → Nat) (blen : Nat)
    (hb : szPktHdrPcapNull ≤ blen) (hf : read32le buf 16 = AF_INET)
    (hpos : 0 ≤ toInt32 ((read32le buf 8 : Int) + 16 - 48)) :
    eaud_pcap_dissect buf blen DLT_NULL =
      (PcapOutcome.OK,
        { pcaprec_hdr := copyHdr buf 0, pcap_hdr_len := 48, udpip := 20,
          l5_data := 48, l5_len := toInt32 ((read32le buf 8 : Int) + 16 - 48),
          src := 32, dst := 36,
          sport := ntohs16 (read16le buf 40), dport := ntohs16 (read16le buf 42) }) := by
  have hb' : ¬ blen < 48 := by
    simp only [szPktHdrPcapNull] at hb
    omega
  simp [eaud_pcap_dissect, dissectStage1, hb', hf, zeroDissect,
    szPktHdrPcapNull, szPcaprecHdr, szUdpip, DLT_NULL, DLT_LINUX_SLL, not_lt.mpr hpos]

theorem dissect_eth_trnk_neg (buf : Nat → Nat) (blen : Nat)
    (hb : szPktHdrPcapEn10t ≤ blen) (he : read16le buf 28 = ETHERTYPE_INET)
    (hneg : toInt32 ((read32le buf 8 : Int) + 16 - 58) < 0) :
    eaud_pcap_dissect buf blen DLT_EN10MB =
      (PcapOutcome.TRNK,
        { pcaprec_hdr := copyHdr buf 0, pcap_hdr_len := 58, udpip := 30,
          l5_data := 0, l5_len := toInt32 ((read32le buf 8 : Int) + 16 - 58),
          src := 0, dst := 0, sport := 0, dport := 0 }) := by
  have hb' : ¬ blen < 58 := by
    simp only [szPktHdrPcapEn10t] at hb
    omega
  simp [eaud_pcap_dissect, dissectStage1, hb', he, zeroDissect,
    szPktHdrPcapEn10t, szPcaprecHdr, DLT_EN10MB, DLT_NULL, DLT_LINUX_SLL, hneg]

theorem dissect_eth_ok (buf : Nat → Nat) (blen : Nat)
    (hb : szPktHdrPcapEn10t ≤ blen) (he : read16le buf 28 = ETHERTYPE_INET)
    (hpos : 0 ≤ toInt32 ((read32le buf 8 : Int) + 16 - 58)) :
    eaud_pcap_dissect buf blen DLT_EN10MB =
      (PcapOutcome.OK,
        { pcaprec_hdr := copyHdr buf 0, pcap_hdr_len := 58, udpip := 30,
          l5_data := 58, l5_len := toInt32 ((read32le buf 8 : Int) + 16 - 58),
          src := 42, dst := 46,
          sport := ntohs16 (read16le buf 50), dport := ntohs16 (read16le buf 52) }) := by
  have hb' : ¬ blen < 58 := by
    simp only [szPktHdrPcapEn10t] at hb
    omega
  simp [eaud_pcap_dissect, dissectStage1, hb', he, zeroDissect,
    szPktHdrPcapEn10t, szPcaprecHdr, szUdpip, DLT_EN10MB, DLT_NULL, DLT_LINUX_SLL,
    not_lt.mpr hpos]

theorem dissect_sll_trnk_neg (buf : Nat → Nat) (blen : Nat)
    (hb : szPcaprecHdr + szLinuxSllHdr ≤ blen)
    (hp : ntohs16 (read16le buf 30) = 2048)
    (hneg : toInt32 ((read32le buf 8 : Int) + 16 - 32) < 0) :
    eaud_pcap_dissect buf blen DLT_LINUX_SLL =
      (PcapOutcome.TRNK,
        { pcaprec_hdr := copyHdr buf 0, pcap_hdr_len := 32, udpip := 32,
          l5_data := 0, l5_len := toInt32 ((read32le buf 8 : Int) + 16 - 32),
          src := 0, dst := 0, sport := 0, dport := 0 }) := by
  have hb' : ¬ blen < 32 := by
    simp only [szPcaprecHdr, szLinuxSllHdr] at hb
    omega
  simp [eaud_pcap_dissect, dissectStage1, DLT_NULL, DLT_LINUX_SLL, szPcaprecHdr,
    szLinuxSllHdr, hb', hp, zeroDissect, hneg]

theorem dissect_sll_trnk_bound (buf : Nat → Nat) (blen : Nat)
    (hb : szPcaprecHdr + szLinuxSllHdr ≤ blen)
    (hp : ntohs16 (read16le buf 30) = 2048)
    (hpos : 0 ≤ toInt32 ((read32le buf 8 : Int) + 16 - 32))
    (hlt : toInt32 ((read32le buf 8 : Int) + 16 - 32) <
      (byteAt buf 32 : Int) % 16 * 4 + 8) :
    eaud_pcap_dissect buf blen DLT_LINUX_SLL =
      (PcapOutcome.TRNK,
        { pcaprec_hdr := copyHdr buf 0, pcap_hdr_len := 32, udpip := 32,
          l5_data := 0, l5_len := toInt32 ((read32le buf 8 : Int) + 16 - 32),
          src := 0, dst := 0, sport := 0, dport := 0 }) := by
  have hb' : ¬ blen < 32 := by
    simp only [szPcaprecHdr, szLinuxSllHdr] at hb
    omega
  simp [eaud_pcap_dissect, dissectStage1, DLT_NULL, DLT_LINUX_SLL, szPcaprecHdr,
    szLinuxSllHdr, szUdphdr, hb', hp, zeroDissect, not_lt.mpr hpos, hlt]

theorem dissect_sll_ok (buf : Nat → Nat) (blen : Nat)
    (hb : szPcaprecHdr + szLinuxSllHdr ≤ blen)
    (hp : ntohs16 (read16le buf 30) = 2048)
    (hge : (byteAt buf 32 : Int) % 16 * 4 + 8 ≤
      toInt32 ((read32le buf 8 : Int) + 16 - 32)) :
    eaud_pcap_dissect buf blen DLT_LINUX_SLL =
      (PcapOutcome.OK,
        { pcaprec_hdr := copyHdr buf 0, pcap_hdr_len := 32, udpip := 32,
          l5_data := 32 + byteAt buf 32 % 16 * 4 + 8,
          l5_len := toInt32 ((read32le buf 8 : Int) + 16 - 32) -
            ((byteAt buf 32 : Int) % 16 * 4 + 8),
          src := 44, dst := 48,
          sport := ntohs16 (read16le buf (32 + byteAt buf 32 % 16 * 4)),
          dport := ntohs16 (read16le buf (32 + byteAt buf 32 % 16 * 4 + 2)) }) := by
  have hb' : ¬ blen < 32 := by
    simp only [szPcaprecHdr, szLinuxSllHdr] at hb
    omega
  have hpos : ¬ toInt32 ((read32le buf 8 : Int) + 16 - 32) < 0 := by omega
  simp [eaud_pcap_dissect, dissectStage1, DLT_NULL, DLT_LINUX_SLL, szPcaprecHdr,
    szLinuxSllHdr, szUdphdr, hb', hp, zeroDissect, hpos, not_lt.mpr hge]

/-! ## Synthetic loopback-framed IPv4/UDP record construction -/

/-- Byte `k` of the 4-byte little-endian (host/file order) encoding of `v`. -/
def le32byte (v k : Nat) : Nat := v / 256 ^ k % 256

/-- Byte `k` (0 = most significant) of the 2-byte network-byte-order
(big-endian) encoding of `v`. -/
def be16byte (v k : Nat) : Nat := v / 256 ^ (1 - k) % 256

/-- A synthetically constructed valid loopback-framed (DLT_NULL) IPv4/UDP
record: record header with `incl_len = orig_len = 32 + N` (family + IP +
UDP + payload), host-order `AF_INET` family, a fixed 20-byte IPv4 header
(version/IHL byte 0x45) with source address `sa` and destination `da`
(4-byte values in the file's own byte order), a UDP header with
network-byte-order ports `sp`/`dq`, and then the `N`-byte payload. -/
def mkLoopback (sa da sp dq N : Nat) (payload : Nat → Nat) : Nat → Nat := fun i =>
  if i < 8 then 0
  else if i < 12 then le32byte (32 + N) (i - 8)
  else if i < 16 then le32byte (32 + N) (i - 12)
  else if i < 20 then le32byte AF_INET (i - 16)
  else if i = 20 then 69
  else if i < 32 then 0
  else if i < 36 then le32byte sa (i - 32)
  else if i < 40 then le32byte da (i - 36)
  else if i < 42 then be16byte sp (i - 40)
  else if i < 44 then be16byte dq (i - 42)
  else if i < 48 then 0
  else payload (i - 48)

theorem mkLoopback_read_incl (sa da sp dq N : Nat) (payload : Nat → Nat)
    (h : 32 + N < 4294967296) :
    read32le (mkLoopback sa da sp dq N payload) 8 = 32 + N := by
  simp [read32le, byteAt, mkLoopback, le32byte]
  omega

theorem mkLoopback_read_family (sa da sp dq N : Nat) (payload : Nat → Nat) :
    read32le (mkLoopback sa da sp dq N payload) 16 = AF_INET := by
  simp [read32le, byteAt, mkLoopback, le32byte, AF_INET]

theorem mkLoopback_read_src (sa da sp dq N : Nat) (payload : Nat → Nat)
    (h : sa < 4294967296) :
    read32le (mkLoopback sa da sp dq N payload) 32 = sa := by
  simp [read32le, byteAt, mkLoopback, le32byte]
  omega

theorem mkLoopback_read_dst (sa da sp dq N : Nat) (payload : Nat → Nat)
    (h : da < 4294967296) :
    read32le (mkLoopback sa da sp dq N payload) 36 = da := by
  simp [read32le, byteAt, mkLoopback, le32byte]
  omega

theorem mkLoopback_read_sport (sa da sp dq N : Nat) (payload : Nat → Nat)
    (h : sp < 65536) :
    ntohs16 (read16le (mkLoopback sa da sp dq N payload) 40) = sp := by
  have hb0 : byteAt (mkLoopback sa da sp dq N payload) 40 = sp / 256 := by
    simp [byteAt, mkLoopback, be16byte]
    omega
  have hb1 : byteAt (mkLoopback sa da sp dq N payload) 41 = sp % 256 := by
    simp [byteAt, mkLoopback, be16byte]
  have e1 : (sp / 256 + 256 * (sp % 256)) % 256 = sp / 256 := by omega
  have e2 : (sp / 256 + 256 * (sp % 256)) / 256 = sp % 256 := by omega
  rw [ntohs16, read16le, hb0, hb1, e1, e2]
  omega

theorem mkLoopback_read_dport (sa da sp dq N : Nat) (payload : Nat → Nat)
    (h : dq < 65536) :
    ntohs16 (read16le (mkLoopback sa da sp dq N payload) 42) = dq := by
  have hb0 : byteAt (mkLoopback sa da sp dq N payload) 42 = dq / 256 := by
    simp [byteAt, mkLoopback, be16byte]
    omega
  have hb1 : byteAt (mkLoopback sa da sp dq N payload) 43 = dq % 256 := by
    simp [byteAt, mkLoopback, be16byte]
  have e1 : (dq / 256 + 256 * (dq % 256)) % 256 = dq / 256 := by omega
  have e2 : (dq / 256 + 256 * (dq % 256)) / 256 = dq % 256 := by omega
  rw [ntohs16, read16le, hb0, hb1, e1, e2]
  omega

/-! ## Claim theorems -/

/-- C1: for every synthetically constructed valid loopback-framed IPv4/UDP
record carrying an `N`-byte payload, `eaud_pcap_dissect` returns `Ok` with
`l5_len = N`, `l5_data` pointing exactly `N` bytes before the end of the
record's declared extent (`szPcaprecHdr + incl_len`), `pcap_hdr_len` equal
to the full fixed aggregate size `szPktHdrPcapNull` (record header + family
+ IP header + UDP header), and the addresses / host-order ports read back
equal to the constructed values. -/
theorem C1_loopback_roundtrip (sa da sp dq N : Nat) (payload : Nat → Nat)
    (hsa : sa < 4294967296) (hda : da < 4294967296)
    (hsp : sp < 65536) (hdq : dq < 65536) (hN : N < 2147483648) :
    (eaud_pcap_dissect (mkLoopback sa da sp dq N payload) (48 + N) DLT_NULL).1 =
      PcapOutcome.OK ∧
    (eaud_pcap_dissect (mkLoopback sa da sp dq N payload) (48 + N) DLT_NULL).2.l5_len =
      (N : Int) ∧
    (eaud_pcap_dissect (mkLoopback sa da sp dq N payload) (48 + N) DLT_NULL).2.l5_data + N =
      szPcaprecHdr + read32le (mkLoopback sa da sp dq N payload) 8 ∧
    (eaud_pcap_dissect (mkLoopback sa da sp dq N payload) (48 + N) DLT_NULL).2.pcap_hdr_len =
      szPktHdrPcapNull ∧
    read32le (mkLoopback sa da sp dq N payload)
      ((eaud_pcap_dissect (mkLoopback sa da sp dq N payload) (48 + N) DLT_NULL).2.src) = sa ∧
    read32le (mkLoopback sa da sp dq N payload)
      ((eaud_pcap_dissect (mkLoopback sa da sp dq N payload) (48 + N) DLT_NULL).2.dst) = da ∧
    (eaud_pcap_dissect (mkLoopback sa da sp dq N payload) (48 + N) DLT_NULL).2.sport = sp ∧
    (eaud_pcap_dissect (mkLoopback sa da sp dq N payload) (48 + N) DLT_NULL).2.dport = dq := by
  have h32 : 32 + N < 4294967296 := by omega
  have hincl := mkLoopback_read_incl sa da sp dq N payload h32
  have hfam := mkLoopback_read_family sa da sp dq N payload
  have hcast : ((32 + N : Nat) : Int) + 16 - 48 = (N : Int) := by push_cast; ring
  have hl5 : toInt32 ((read32le (mkLoopback sa da sp dq N payload) 8 : Int) + 16 - 48) =
      (N : Int) := by
    rw [hincl, hcast]
    exact toInt32_of_nonneg_small _ (Int.ofNat_nonneg N) (by exact_mod_cast hN)
  have hdis := dissect_null_ok (mkLoopback sa da sp dq N payload) (48 + N)
    (by simp [szPktHdrPcapNull]) hfam (by rw [hl5]; exact Int.ofNat_nonneg N)
  rw [hdis]
  refine ⟨rfl, hl5, ?_, rfl, ?_, ?_, ?_, ?_⟩
  · rw [hincl]
    simp [szPcaprecHdr]
    omega
  · exact mkLoopback_read_src sa da sp dq N payload hsa
  · exact mkLoopback_read_dst sa da sp dq N payload hda
  · exact mkLoopback_read_sport sa da sp dq N payload hsp
  · exact mkLoopback_read_dport sa da sp dq N payload hdq

/-- Witness for C1 at a concrete record: addresses 10.1.2.2 / 10.2.3.2,
ports 5004/6006, a 5-byte payload. -/
theorem C1_loopback_roundtrip_witness :
    (eaud_pcap_dissect (mkLoopback 167837954 167838210 5004 6006 5 (fun _ => 99))
      (48 + 5) DLT_NULL).1 = PcapOutcome.OK :=
  (C1_loopback_roundtrip 167837954 167838210 5004 6006 5 (fun _ => 99)
    (by decide) (by decide) (by decide) (by decide) (by decide)).1

/-- C2: for every framing, when the minimum-size check passes but the
discriminator does not match the IPv4 marker, the dissector returns
`Unknown` with `pcap_hdr_len` set exactly to
`szPcaprecHdr + incl_len` (the declared record length read at offset 8)
and every other field of the result left at its zero default, regardless
of the actual buffer length beyond the minimum check. -/
theorem C2_unknown_skip (buf : Nat → Nat) (blen : Nat) (network : Int) :
    (network = DLT_NULL → szPktHdrPcapNull ≤ blen → read32le buf 16 ≠ AF_INET →
      eaud_pcap_dissect buf blen network =
        (PcapOutcome.UNKN,
          { zeroDissect with pcap_hdr_len := szPcaprecHdr + read32le buf 8 })) ∧
    (network = DLT_LINUX_SLL → szPcaprecHdr + szLinuxSllHdr ≤ blen →
      ntohs16 (read16le buf 30) ≠ 2048 →
      eaud_pcap_dissect buf blen network =
        (PcapOutcome.UNKN,
          { zeroDissect with pcap_hdr_len := szPcaprecHdr + read32le buf 8 })) ∧
    (network ≠ DLT_NULL → network ≠ DLT_LINUX_SLL → szPktHdrPcapEn10t ≤ blen →
      read16le buf 28 ≠ ETHERTYPE_INET →
      eaud_pcap_dissect buf blen network =
        (PcapOutcome.UNKN,
          { zeroDissect with pcap_hdr_len := szPcaprecHdr + read32le buf 8 })) := by
  refine ⟨?_, ?_, ?_⟩
  · intro h0 hb hf
    subst h0
    exact dissect_null_unkn buf blen hb hf
  · intro h1 hb hp
    subst h1
    exact dissect_sll_unkn buf blen hb hp
  · intro h0 h1 hb he
    exact dissect_eth_unkn buf blen network h0 h1 hb he

/-- Witness for C2 at a concrete input: an all-zero 58-byte buffer under an
unrecognized tag (default/Ethernet path), whose ethertype 0 is not the
IPv4 marker. -/
theorem C2_unknown_skip_witness :
    eaud_pcap_dissect (fun _ => 0) 58 5 =
      (PcapOutcome.UNKN,
        { zeroDissect with pcap_hdr_len := szPcaprecHdr + read32le (fun _ => 0) 8 }) :=
  (C2_unknown_skip (fun _ => 0) 58 5).2.2 (by decide) (by decide) (by decide) (by decide)

/-- C5: for each framing, a buffer strictly shorter than that framing's
minimum header size makes the dissector return `Truncated` with every
field of the result at its zero default (the result is zero-initialized
before any check). -/
theorem C5_short_buffer_zero (buf : Nat → Nat) (blen : Nat) (network : Int)
    (h : blen < minSizeFor network) :
    eaud_pcap_dissect buf blen network = (PcapOutcome.TRNK, zeroDissect) :=
  dissect_short buf blen network h

/-- Witness for C5: the empty buffer on the loopback framing. -/
theorem C5_short_buffer_zero_witness :
    eaud_pcap_dissect (fun _ => 0) 0 DLT_NULL = (PcapOutcome.TRNK, zeroDissect) :=
  C5_short_buffer_zero (fun _ => 0) 0 DLT_NULL (by decide)

/-- C7: every link-type tag other than `DLT_NULL` and `DLT_LINUX_SLL` is
dissected exactly like the generic-Ethernet tag: same outcome and an
identical result on every buffer. -/
theorem C7_default_is_ethernet (buf : Nat → Nat) (blen : Nat) (t : Int)
    (h0 : t ≠ DLT_NULL) (h1 : t ≠ DLT_LINUX_SLL) :
    eaud_pcap_dissect buf blen t = eaud_pcap_dissect buf blen DLT_EN10MB :=
  dissect_default_eq buf blen t h0 h1

/-- Witness for C7 at tag 5 on an all-zero buffer. -/
theorem C7_default_is_ethernet_witness :
    eaud_pcap_dissect (fun _ => 0) 58 5 = eaud_pcap_dissect (fun _ => 0) 58 DLT_EN10MB :=
  C7_default_is_ethernet (fun _ => 0) 58 5 (by decide) (by decide)

/-- C9: for the loopback and generic-Ethernet framings, the `Unknown`
outcome occurs only when the buffer covers the entire fixed aggregate
(record header + link header + fixed IP header + UDP header); a buffer
merely long enough for the discriminator but shorter than the aggregate
yields `Truncated` regardless of the discriminator. -/
theorem C9_unknown_needs_full_aggregate (buf : Nat → Nat) (blen : Nat) :
    ((eaud_pcap_dissect buf blen DLT_NULL).1 = PcapOutcome.UNKN →
      szPktHdrPcapNull ≤ blen) ∧
    ((eaud_pcap_dissect buf blen DLT_EN10MB).1 = PcapOutcome.UNKN →
      szPktHdrPcapEn10t ≤ blen) ∧
    (blen < szPktHdrPcapNull →
      (eaud_pcap_dissect buf blen DLT_NULL).1 = PcapOutcome.TRNK) ∧
    (blen < szPktHdrPcapEn10t →
      (eaud_pcap_dissect buf blen DLT_EN10MB).1 = PcapOutcome.TRNK) := by
  have hmin0 : minSizeFor DLT_NULL = szPktHdrPcapNull := by
    simp [minSizeFor]
  have hmin1 : minSizeFor DLT_EN10MB = szPktHdrPcapEn10t := by
    simp [minSizeFor, DLT_EN10MB, DLT_NULL, DLT_LINUX_SLL]
  refine ⟨?_, ?_, ?_, ?_⟩
  · intro h
    by_contra hb
    rw [Nat.not_le] at hb
    rw [dissect_short buf blen DLT_NULL (hmin0 ▸ hb)] at h
    simp at h
  · intro h
    by_contra hb
    rw [Nat.not_le] at hb
    rw [dissect_short buf blen DLT_EN10MB (hmin1 ▸ hb)] at h
    simp at h
  · intro hb
    rw [dissect_short buf blen DLT_NULL (hmin0 ▸ hb)]
  · intro hb
    rw [dissect_short buf blen DLT_EN10MB (hmin1 ▸ hb)]

/-- Witness for C9: a 20-byte buffer (long enough for the loopback
discriminator at offsets 16..19, shorter than the 48-byte aggregate) with
a non-IPv4 family still yields `Truncated`. -/
theorem C9_unknown_needs_full_aggregate_witness :
    (eaud_pcap_dissect (fun _ => 9) 20 DLT_NULL).1 = PcapOutcome.TRNK :=
  (C9_unknown_needs_full_aggregate (fun _ => 9) 20).2.2.1 (by decide)

/-- C3: on the Linux-cooked path, once the minimum-size check passes and
the protocol is IPv4, with `ip_header_bytes = (ip_hl nibble) * 4` read at
the IP header start (offset 32): if the step-5 payload length is below
`ip_header_bytes + 8` the dissector returns `Truncated`; otherwise it
returns `Ok` with the payload starting right after the UDP header
(IP start + ip_header_bytes + 8) and the payload length reduced by
`ip_header_bytes + 8`. -/
theorem C3_sll_variable_path (buf : Nat → Nat) (blen : Nat)
    (hb : szPcaprecHdr + szLinuxSllHdr ≤ blen)
    (hp : ntohs16 (read16le buf 30) = 2048) :
    (toInt32 ((read32le buf 8 : Int) + 16 - 32) < (byteAt buf 32 : Int) % 16 * 4 + 8 →
      (eaud_pcap_dissect buf blen DLT_LINUX_SLL).1 = PcapOutcome.TRNK) ∧
    ((byteAt buf 32 : Int) % 16 * 4 + 8 ≤ toInt32 ((read32le buf 8 : Int) + 16 - 32) →
      (eaud_pcap_dissect buf blen DLT_LINUX_SLL).1 = PcapOutcome.OK ∧
      (eaud_pcap_dissect buf blen DLT_LINUX_SLL).2.l5_data =
        32 + byteAt buf 32 % 16 * 4 + 8 ∧
      (eaud_pcap_dissect buf blen DLT_LINUX_SLL).2.l5_len =
        toInt32 ((read32le buf 8 : Int) + 16 - 32) -
          ((byteAt buf 32 : Int) % 16 * 4 + 8)) := by
  constructor
  · intro hlt
    by_cases hneg : toInt32 ((read32le buf 8 : Int) + 16 - 32) < 0
    · rw [dissect_sll_trnk_neg buf blen hb hp hneg]
    · rw [dissect_sll_trnk_bound buf blen hb hp (not_lt.mp hneg) hlt]
  · intro hge
    rw [dissect_sll_ok buf blen hb hp hge]
    exact ⟨rfl, rfl, rfl⟩

/-- Witness for C3: a Linux-cooked record with `incl_len = 49`
(16-byte SLL header + 20-byte IP header + 8-byte UDP header + 5 payload
bytes), protocol bytes 08 00 and IP version/IHL byte 0x45, dissected
successfully. -/
theorem C3_sll_variable_path_witness :
    (eaud_pcap_dissect
      (fun i => if i = 8 then 49 else if i = 30 then 8 else if i = 32 then 69 else 0)
      32 DLT_LINUX_SLL).1 = PcapOutcome.OK :=
  ((C3_sll_variable_path
    (fun i => if i = 8 then 49 else if i = 30 then 8 else if i = 32 then 69 else 0)
    32 (by decide) (by decide)).2 (by decide)).1

theorem stage1_cases (buf : Nat → Nat) (blen : Nat) (network : Int) :
    (∃ incl dp1, dissectStage1 buf blen network = Sum.inr (incl, dp1)) ∨
    dissectStage1 buf blen network = Sum.inl (PcapOutcome.TRNK, zeroDissect) ∨
    dissectStage1 buf blen network =
      Sum.inl (PcapOutcome.UNKN,
        { zeroDissect with pcap_hdr_len := szPcaprecHdr + read32le buf 8 }) := by
  unfold dissectStage1
  split
  · split
    · right; left; rfl
    · dsimp only
      split
      · right; right; rfl
      · left; exact ⟨_, _, rfl⟩
  · split
    · split
      · right; left; rfl
      · dsimp only
        split
        · right; right; rfl
        · left; exact ⟨_, _, rfl⟩
    · split
      · right; left; rfl
      · dsimp only
        split
        · right; right; rfl
        · left; exact ⟨_, _, rfl⟩

theorem stage1_inl_l5 (buf : Nat → Nat) (blen : Nat) (network : Int)
    (r : PcapOutcome × PcapDissect)
    (h : dissectStage1 buf blen network = Sum.inl r) : r.2.l5_len = 0 := by
  rcases stage1_cases buf blen network with ⟨incl, dp1, hs⟩ | hs | hs
  · rw [hs] at h
    simp at h
  · rw [hs] at h
    injection h with h
    rw [← h]
    simp [zeroDissect]
  · rw [hs] at h
    injection h with h
    rw [← h]
    simp [zeroDissect]

theorem dissect_ok_l5_nonneg (buf : Nat → Nat) (blen : Nat) (network : Int)
    (hOK : (eaud_pcap_dissect buf blen network).1 = PcapOutcome.OK) :
    0 ≤ (eaud_pcap_dissect buf blen network).2.l5_len := by
  unfold eaud_pcap_dissect at hOK ⊢
  rcases stage1_cases buf blen network with ⟨incl, dp1, hs⟩ | hs | hs
  all_goals rw [hs] at hOK ⊢
  · dsimp only at hOK ⊢
    split at hOK
    next hneg => simp at hOK
    next hneg =>
      split at hOK
      next hsll =>
        rw [if_neg hneg, if_pos hsll]
        split at hOK
        next hbound => simp at hOK
        next hbound =>
          rw [if_neg hbound]
          exact Int.sub_nonneg.mpr (Int.not_lt.mp hbound)
      next hsll =>
        rw [if_neg hneg, if_neg hsll]
        exact Int.not_lt.mp hneg
  · simp at hOK
  · simp at hOK

theorem read32le_lt (buf : Nat → Nat) (off : Nat) : read32le buf off < 4294967296 := by
  simp [read32le, byteAt]
  omega

theorem toInt32_neg_small (x : Int) (h0 : -2147483648 ≤ x) (h1 : x < 0) :
    toInt32 x = x := by
  unfold toInt32
  split <;> omega

/-- C4: the payload length `l5_len` exposed on a successful dissection is
never negative, and whenever `incl_len + szPcaprecHdr` falls short of the
consumed header length for the matching framing (for any 32-bit value of
`incl_len`, which `read32le` always is), the dissector returns
`Truncated` through the signed negative-length check. -/
theorem C4_no_negative_payload (buf : Nat → Nat) (blen : Nat) (network : Int) :
    ((eaud_pcap_dissect buf blen network).1 = PcapOutcome.OK →
      0 ≤ (eaud_pcap_dissect buf blen network).2.l5_len) ∧
    (network = DLT_NULL → szPktHdrPcapNull ≤ blen → read32le buf 16 = AF_INET →
      read32le buf 8 + szPcaprecHdr < szPktHdrPcapNull →
      (eaud_pcap_dissect buf blen network).1 = PcapOutcome.TRNK) ∧
    (network = DLT_LINUX_SLL → szPcaprecHdr + szLinuxSllHdr ≤ blen →
      ntohs16 (read16le buf 30) = 2048 →
      read32le buf 8 + szPcaprecHdr < szPcaprecHdr + szLinuxSllHdr →
      (eaud_pcap_dissect buf blen network).1 = PcapOutcome.TRNK) ∧
    (network ≠ DLT_NULL → network ≠ DLT_LINUX_SLL → szPktHdrPcapEn10t ≤ blen →
      read16le buf 28 = ETHERTYPE_INET →
      read32le buf 8 + szPcaprecHdr < szPktHdrPcapEn10t →
      (eaud_pcap_dissect buf blen network).1 = PcapOutcome.TRNK) := by
  refine ⟨dissect_ok_l5_nonneg buf blen network, ?_, ?_, ?_⟩
  · intro h0 hb hf hlt
    subst h0
    have hlt' : read32le buf 8 + 16 < 48 := by
      simpa [szPcaprecHdr, szPktHdrPcapNull] using hlt
    have hx : ((read32le buf 8 : Int) + 16 - 48) < 0 := by omega
    have hneg : toInt32 ((read32le buf 8 : Int) + 16 - 48) < 0 := by
      rw [toInt32_neg_small _ (by omega) hx]
      exact hx
    rw [dissect_null_trnk_neg buf blen hb hf hneg]
  · intro h1 hb hp hlt
    subst h1
    have hlt' : read32le buf 8 + 16 < 32 := by
      simpa [szPcaprecHdr, szLinuxSllHdr] using hlt
    have hx : ((read32le buf 8 : Int) + 16 - 32) < 0 := by omega
    have hneg : toInt32 ((read32le buf 8 : Int) + 16 - 32) < 0 := by
      rw [toInt32_neg_small _ (by omega) hx]
      exact hx
    rw [dissect_sll_trnk_neg buf blen hb hp hneg]
  · intro h0 h1 hb he hlt
    have hlt' : read32le buf 8 + 16 < 58 := by
      simpa [szPcaprecHdr, szPktHdrPcapEn10t] using hlt
    have hx : ((read32le buf 8 : Int) + 16 - 58) < 0 := by omega
    have hneg : toInt32 ((read32le buf 8 : Int) + 16 - 58) < 0 := by
      rw [toInt32_neg_small _ (by omega) hx]
      exact hx
    rw [dissect_default_eq buf blen network h0 h1,
      dissect_eth_trnk_neg buf blen hb he hneg]

/-- Witness for C4: a loopback record with matching family and
`incl_len = 0` (so `incl_len + 16 < 48`) is reported `Truncated`. -/
theorem C4_no_negative_payload_witness :
    (eaud_pcap_dissect (fun i => if i = 16 then 2 else 0) 48 DLT_NULL).1 =
      PcapOutcome.TRNK :=
  (C4_no_negative_payload (fun i => if i = 16 then 2 else 0) 48 DLT_NULL).2.1
    rfl (by decide) (by decide) (by decide)

theorem stage1_blen_irrel (buf : Nat → Nat) (network : Int) (blen1 blen2 : Nat)
    (h1 : minSizeFor network ≤ blen1) (h2 : minSizeFor network ≤ blen2) :
    dissectStage1 buf blen1 network = dissectStage1 buf blen2 network := by
  by_cases h0 : network = DLT_NULL
  · simp only [minSizeFor, if_pos h0] at h1 h2
    simp only [dissectStage1, if_pos h0, if_neg (Nat.not_lt.mpr h1),
      if_neg (Nat.not_lt.mpr h2)]
  · by_cases hsll : network = DLT_LINUX_SLL
    · simp only [minSizeFor, if_neg h0, if_pos hsll] at h1 h2
      simp only [dissectStage1, if_neg h0, if_pos hsll, if_neg (Nat.not_lt.mpr h1),
        if_neg (Nat.not_lt.mpr h2)]
    · simp only [minSizeFor, if_neg h0, if_neg hsll] at h1 h2
      simp only [dissectStage1, if_neg h0, if_neg hsll, if_neg (Nat.not_lt.mpr h1),
        if_neg (Nat.not_lt.mpr h2)]

theorem dissect_blen_irrel (buf : Nat → Nat) (network : Int) (blen1 blen2 : Nat)
    (h1 : minSizeFor network ≤ blen1) (h2 : minSizeFor network ≤ blen2) :
    eaud_pcap_dissect buf blen1 network = eaud_pcap_dissect buf blen2 network := by
  unfold eaud_pcap_dissect
  rw [stage1_blen_irrel buf network blen1 blen2 h1 h2]

/-- C8 (implicit): the physical buffer length influences the dissection
only through the per-framing minimum-size comparison — two calls on the
same byte contents whose lengths both meet that minimum return identical
outcome and result; all later truncation checks use only the declared
`incl_len`, so `Ok` is returned even when the declared extent
(`szPcaprecHdr + incl_len`) exceeds the physical buffer, as the concrete
second conjunct shows at `blen = 48` with `incl_len = 1032`. -/
theorem C8_blen_only_min_check :
    (∀ (buf : Nat → Nat) (network : Int) (blen1 blen2 : Nat),
      minSizeFor network ≤ blen1 → minSizeFor network ≤ blen2 →
      eaud_pcap_dissect buf blen1 network = eaud_pcap_dissect buf blen2 network) ∧
    ((eaud_pcap_dissect (mkLoopback 0 0 0 0 1000 (fun _ => 0)) 48 DLT_NULL).1 =
      PcapOutcome.OK ∧
      48 < szPcaprecHdr + read32le (mkLoopback 0 0 0 0 1000 (fun _ => 0)) 8) := by
  refine ⟨fun buf network blen1 blen2 h1 h2 =>
    dissect_blen_irrel buf network blen1 blen2 h1 h2, ?_, ?_⟩
  · decide
  · decide

/-- Witness for C8: the same all-zero contents at two lengths meeting the
loopback minimum dissect identically. -/
theorem C8_blen_only_min_check_witness :
    eaud_pcap_dissect (fun _ => 0) 48 DLT_NULL =
      eaud_pcap_dissect (fun _ => 0) 50 DLT_NULL :=
  C8_blen_only_min_check.1 (fun _ => 0) DLT_NULL 48 50 (by decide) (by decide)

/-- A loopback-framed buffer whose 4-byte family field holds the IPv4
family constant `AF_INET = 2` encoded in network byte order
(bytes 00 00 00 02 at offsets 16..19). -/
def bufC6 : Nat → Nat := fun i => if i = 19 then 2 else 0

/-- C6 counterexample: the claim says the discriminator is converted from
network byte order before the IPv4 comparison on every framing, so this
buffer should proceed past the check; in fact the loopback family field is
loaded in host byte order and compared against `AF_INET` unconverted
(`read32le bufC6 16 = 0x02000000 ≠ 2`), and the dissector returns
`Unknown` instead of proceeding. -/
theorem C6_counterexample :
    (eaud_pcap_dissect bufC6 48 DLT_NULL).1 = PcapOutcome.UNKN := by decide

/-- C6 amended: the Linux-cooked protocol field is converted with `ntohs`
before the comparison with 0x0800 and the Ethernet ethertype is compared
raw against the network-byte-order marker constant, so network-byte-order
IPv4 discriminators proceed past the check on those two framings; the
loopback family field, however, is read in host byte order and compared
against `AF_INET` without conversion: a host-byte-order family proceeds
while a network-byte-order one yields `Unknown`. -/
theorem C6_amended (buf : Nat → Nat) (blen : Nat) :
    (szPcaprecHdr + szLinuxSllHdr ≤ blen → byteAt buf 30 = 8 → byteAt buf 31 = 0 →
      (eaud_pcap_dissect buf blen DLT_LINUX_SLL).1 ≠ PcapOutcome.UNKN) ∧
    (szPktHdrPcapEn10t ≤ blen → byteAt buf 28 = 8 → byteAt buf 29 = 0 →
      (eaud_pcap_dissect buf blen DLT_EN10MB).1 ≠ PcapOutcome.UNKN) ∧
    (szPktHdrPcapNull ≤ blen → byteAt buf 16 = 2 → byteAt buf 17 = 0 →
      byteAt buf 18 = 0 → byteAt buf 19 = 0 →
      (eaud_pcap_dissect buf blen DLT_NULL).1 ≠ PcapOutcome.UNKN) ∧
    (szPktHdrPcapNull ≤ blen → byteAt buf 16 = 0 → byteAt buf 17 = 0 →
      byteAt buf 18 = 0 → byteAt buf 19 = 2 →
      (eaud_pcap_dissect buf blen DLT_NULL).1 = PcapOutcome.UNKN) := by
  refine ⟨?_, ?_, ?_, ?_⟩
  · intro hb b30 b31
    have hp : ntohs16 (read16le buf 30) = 2048 := by
      simp [read16le, ntohs16, b30, b31]
    by_cases hneg : toInt32 ((read32le buf 8 : Int) + 16 - 32) < 0
    · rw [dissect_sll_trnk_neg buf blen hb hp hneg]
      simp
    · by_cases hbound : toInt32 ((read32le buf 8 : Int) + 16 - 32) <
        (byteAt buf 32 : Int) % 16 * 4 + 8
      · rw [dissect_sll_trnk_bound buf blen hb hp (not_lt.mp hneg) hbound]
        simp
      · rw [dissect_sll_ok buf blen hb hp (not_lt.mp hbound)]
        simp
  · intro hb b28 b29
    have he : read16le buf 28 = ETHERTYPE_INET := by
      simp [read16le, ETHERTYPE_INET, b28, b29]
    by_cases hneg : toInt32 ((read32le buf 8 : Int) + 16 - 58) < 0
    · rw [dissect_eth_trnk_neg buf blen hb he hneg]
      simp
    · rw [dissect_eth_ok buf blen hb he (not_lt.mp hneg)]
      simp
  · intro hb b16 b17 b18 b19
    have hf : read32le buf 16 = AF_INET := by
      simp [read32le, AF_INET, b16, b17, b18, b19]
    by_cases hneg : toInt32 ((read32le buf 8 : Int) + 16 - 48) < 0
    · rw [dissect_null_trnk_neg buf blen hb hf hneg]
      simp
    · rw [dissect_null_ok buf blen hb hf (not_lt.mp hneg)]
      simp
  · intro hb b16 b17 b18 b19
    have hf : read32le buf 16 ≠ AF_INET := by
      simp [read32le, AF_INET, b16, b17, b18, b19]
    rw [dissect_null_unkn buf blen hb hf]

/-- Witness for the amended C6: a Linux-cooked buffer with
network-byte-order IPv4 protocol bytes 08 00 proceeds past the
discriminator check. -/
theorem C6_amended_witness :
    (eaud_pcap_dissect (fun i => if i = 30 then 8 else 0) 32 DLT_LINUX_SLL).1 ≠
      PcapOutcome.UNKN :=
  (C6_amended (fun i => if i = 30 then 8 else 0) 32).1 (by decide) (by decide) (by decide)

/-- A loopback-framed buffer with matching host-order `AF_INET` family and
`incl_len = 0`, driving the negative-payload-length `Truncated` return. -/
def bufC10 : Nat → Nat := fun i => if i = 16 then 2 else 0

/-- C10 counterexample: the claim says that on the negative-payload-length
`Truncated` return the payload length remains zero; in fact `l5_len` is
written before the check and holds the negative computed value (-32 here),
so it is not zero. -/
theorem C10_counterexample :
    (eaud_pcap_dissect bufC10 48 DLT_NULL).1 = PcapOutcome.TRNK ∧
    (eaud_pcap_dissect bufC10 48 DLT_NULL).2.l5_len ≠ 0 := by decide

/-- C10 amended: when the dissector returns `Truncated` from the
negative-payload-length check (fixed-aggregate framings shown for the
loopback and Ethernet paths) or from the Linux-cooked IP+UDP bound check,
the result is not all-zero: the copied record header, `pcap_hdr_len`, and
the network-pair reference `udpip` are already populated and `l5_len`
holds the computed (negative, or insufficient nonnegative) value, while
the payload reference, addresses, and ports remain zero. -/
theorem C10_amended (buf : Nat → Nat) (blen : Nat) :
    (szPktHdrPcapNull ≤ blen → read32le buf 16 = AF_INET →
      toInt32 ((read32le buf 8 : Int) + 16 - 48) < 0 →
      eaud_pcap_dissect buf blen DLT_NULL =
        (PcapOutcome.TRNK,
          { pcaprec_hdr := copyHdr buf 0, pcap_hdr_len := 48, udpip := 20,
            l5_data := 0, l5_len := toInt32 ((read32le buf 8 : Int) + 16 - 48),
            src := 0, dst := 0, sport := 0, dport := 0 })) ∧
    (szPktHdrPcapEn10t ≤ blen → read16le buf 28 = ETHERTYPE_INET →
      toInt32 ((read32le buf 8 : Int) + 16 - 58) < 0 →
      eaud_pcap_dissect buf blen DLT_EN10MB =
        (PcapOutcome.TRNK,
          { pcaprec_hdr := copyHdr buf 0, pcap_hdr_len := 58, udpip := 30,
            l5_data := 0, l5_len := toInt32 ((read32le buf 8 : Int) + 16 - 58),
            src := 0, dst := 0, sport := 0, dport := 0 })) ∧
    (szPcaprecHdr + szLinuxSllHdr ≤ blen → ntohs16 (read16le buf 30) = 2048 →
      0 ≤ toInt32 ((read32le buf 8 : Int) + 16 - 32) →
      toInt32 ((read32le buf 8 : Int) + 16 - 32) <
        (byteAt buf 32 : Int) % 16 * 4 + 8 →
      eaud_pcap_dissect buf blen DLT_LINUX_SLL =
        (PcapOutcome.TRNK,
          { pcaprec_hdr := copyHdr buf 0, pcap_hdr_len := 32, udpip := 32,
            l5_data := 0, l5_len := toInt32 ((read32le buf 8 : Int) + 16 - 32),
            src := 0, dst := 0, sport := 0, dport := 0 })) := by
  refine ⟨?_, ?_, ?_⟩
  · intro hb hf hneg
    exact dissect_null_trnk_neg buf blen hb hf hneg
  · intro hb he hneg
    exact dissect_eth_trnk_neg buf blen hb he hneg
  · intro hb hp hpos hlt
    exact dissect_sll_trnk_bound buf blen hb hp hpos hlt

/-- Witness for the amended C10 at the concrete `bufC10` record. -/
theorem C10_amended_witness :
    eaud_pcap_dissect bufC10 48 DLT_NULL =
      (PcapOutcome.TRNK,
        { pcaprec_hdr := copyHdr bufC10 0, pcap_hdr_len := 48, udpip := 20,
          l5_data := 0, l5_len := toInt32 ((read32le bufC10 8 : Int) + 16 - 48),
          src := 0, dst := 0, sport := 0, dport := 0 }) :=
  (C10_amended bufC10 48).1 (by decide) (by decide) (by decide)
